import Mathlib

/-!
Shallow embedding of the classroom-booking conflict/recurrence engine
(`src/utils/dateUtils.ts` / `src/services/firebase.ts` and the booking
handlers of `src/App.tsx`).

Time is modelled as naive local wall-clock time, measured in whole minutes
(`Int`).  Day 0 (minutes 0..1439) is a Monday, so a time `t` falls on a
weekend exactly when `t mod 10080` (minutes of the week) lies in the
Saturday/Sunday band `[7200, 10080)`.  `date-fns` helpers `addDays`,
`addWeeks`, `addMinutes` and `isBefore` become plain integer arithmetic.

JavaScript truthiness of optional string arguments (an `undefined` or `""`
exclusion id is falsy and disables the exclusion) is modelled explicitly.
`crypto.randomUUID()` is nondeterministic in the source; generators take the
minted series id and an id supply `Nat → String` as explicit parameters.
-/

def minutesPerDay : Int := 1440

def minutesPerWeek : Int := 10080

/-- Model of `date-fns` `addDays(t, n)` on naive wall-clock minutes. -/
def addDays (t : Int) (n : Int) : Int := t + minutesPerDay * n

/-- Model of `date-fns` `addWeeks(t, n)` on naive wall-clock minutes. -/
def addWeeks (t : Int) (n : Int) : Int := t + minutesPerWeek * n

/-- Model of `date-fns` `addMinutes(t, n)`. -/
def addMinutes (t : Int) (n : Int) : Int := t + n

/-- Model of `date-fns` `isBefore(a, b)`: strict comparison of instants. -/
def isBefore (a b : Int) : Bool := a < b

/-- Model of `date-fns` `isWeekend(t)`: the day of `t` is a Saturday or a Sunday.
With day 0 a Monday, the weekend is the band `[7200, 10080)` of the
minutes-of-week value. -/
def isWeekend (t : Int) : Bool := 7200 ≤ t % 10080

/-- The `BookingType` enum from `src/types.ts`. -/
inductive BookingType where
  | oneTime
  | recurringWeekly
  | recurringWeekday
deriving DecidableEq, Repr

/-- The `Booking` interface from `src/types.ts` (times in minutes; optional fields as
`Option`). -/
structure Booking where
  id : String
  classroomId : String
  title : String
  description : Option String
  organizer : String
  startTime : Int
  endTime : Int
  type : BookingType
  seriesId : Option String
  color : String
  userId : Option String
  userEmail : Option String
deriving DecidableEq, Repr

/-- The `Omit<Booking, 'id'>` template: the seed passed to the recurrence generator. -/
structure BookingTemplate where
  classroomId : String
  title : String
  description : Option String
  organizer : String
  startTime : Int
  endTime : Int
  type : BookingType
  seriesId : Option String
  color : String
  userId : Option String
  userEmail : Option String
deriving DecidableEq, Repr

/-- JS guard `excludeBookingId && b.id === excludeBookingId`: the exclusion
is active only when the optional string is supplied and truthy (non-empty). -/
def truthyEqId (excl : Option String) (idv : String) : Bool :=
  match excl with
  | some s => !(s == "") && idv == s
  | none => false

/-- JS guard `excludeSeriesId && b.seriesId === excludeSeriesId`. -/
def truthyEqSeries (excl : Option String) (sid : Option String) : Bool :=
  match excl with
  | some s => !(s == "") && sid == some s
  | none => false

/-- Model of `isOverlap` from `src/services/firebase.ts` (lines 63-84): does the
candidate interval conflict with any non-excluded booking of the classroom?
Boundaries are exclusive: overlap iff `newStart < b.endTime` and
`newEnd > b.startTime`. -/
def isOverlap (newStart newEnd : Int) (classroomId : String)
    (existingBookings : List Booking)
    (excludeBookingId excludeSeriesId : Option String) : Bool :=
  existingBookings.any fun b =>
    if b.classroomId ≠ classroomId then false
    else if truthyEqId excludeBookingId b.id then false
    else if truthyEqSeries excludeSeriesId b.seriesId then false
    else decide (newStart < b.endTime) && decide (newEnd > b.startTime)

/-- Model of `findOverlappingBooking` from `src/services/firebase.ts` (lines 87-103):
returns the first conflicting booking, or `none`. -/
def findOverlappingBooking (newStart newEnd : Int) (classroomId : String)
    (existingBookings : List Booking)
    (excludeBookingId excludeSeriesId : Option String) : Option Booking :=
  existingBookings.find? fun b =>
    if b.classroomId ≠ classroomId then false
    else if truthyEqId excludeBookingId b.id then false
    else if truthyEqSeries excludeSeriesId b.seriesId then false
    else decide (newStart < b.endTime) && decide (newEnd > b.startTime)

/-- Instance produced by one push of the generator loop:
`{...baseBooking, id, seriesId, startTime, endTime, type}`. -/
def mkInstance (base : BookingTemplate) (seriesId idv : String)
    (s e : Int) (ty : BookingType) : Booking :=
  { id := idv
    classroomId := base.classroomId
    title := base.title
    description := base.description
    organizer := base.organizer
    startTime := s
    endTime := e
    type := ty
    seriesId := some seriesId
    color := base.color
    userId := base.userId
    userEmail := base.userEmail }

/-- The `while (isBefore(currentStart, endLimit) && safety < 365)` loop of
`generateRecurringBookings`.  `fuel` is `365 - safety`, so the loop body runs
at most 365 times; `k` counts the instances pushed so far (indexing the id
supply).  `RecurringWeekly` always pushes and steps by a week;
`RecurringWeekday` pushes only on non-weekend days and steps by a day; any
other type hits the `break` of the final `else` and returns the (empty)
accumulated list. -/
def genLoop (base : BookingTemplate) (seriesId : String) (ids : Nat → String)
    (endLimit : Int) (ty : BookingType) :
    Nat → Int → Int → Nat → List Booking
  | 0, _, _, _ => []
  | fuel + 1, curS, curE, k =>
    if curS < endLimit then
      match ty with
      | .recurringWeekly =>
        mkInstance base seriesId (ids k) curS curE ty ::
          genLoop base seriesId ids endLimit ty fuel (curS + 10080) (curE + 10080) (k + 1)
      | .recurringWeekday =>
        if isWeekend curS then
          genLoop base seriesId ids endLimit ty fuel (curS + 1440) (curE + 1440) k
        else
          mkInstance base seriesId (ids k) curS curE ty ::
            genLoop base seriesId ids endLimit ty fuel (curS + 1440) (curE + 1440) (k + 1)
      | .oneTime => []
    else []

/-- Model of `generateRecurringBookings` from `src/services/firebase.ts` (lines
116-173).  The single minted `crypto.randomUUID()` series id and the per-push
instance ids are passed in explicitly; `endLimit = addDays(recurrenceEndDate, 1)`
makes the recurrence end date inclusive. -/
def generateRecurringBookings (seriesId : String) (ids : Nat → String)
    (baseBooking : BookingTemplate) (recurrenceEndDate : Int)
    (ty : BookingType) : List Booking :=
  genLoop baseBooking seriesId ids (addDays recurrenceEndDate 1) ty
    365 baseBooking.startTime baseBooking.endTime 0

/-- Edit/delete scope (`'single' | 'series'`). -/
inductive Scope where
  | single
  | series
deriving DecidableEq, Repr

/-- Outcome signal of `handleBookingMove` / `handleBookingResize`
(`src/App.tsx` lines 402-459).  `noop` models the silent early returns
(guest caller, or booking not found); `authError` the ownership `alert`;
`conflictError` the overlap `alert`; `saved` the optimistic update. -/
inductive MutSignal where
  | noop
  | authError
  | conflictError
  | saved
deriving DecidableEq, Repr

/-- Resulting corpus plus signal of a move/resize handler. -/
structure MutOutcome where
  corpus : List Booking
  signal : MutSignal
deriving DecidableEq, Repr

/-- Model of `handleBookingMove` from `src/App.tsx` (lines 402-431).  Duration is
preserved (`newEnd = newStart + (oldEnd - oldStart)`), the overlap check
excludes only the moved booking's own id, and a successful move replaces the
booking in the corpus. -/
def handleBookingMove (isGuest isAdmin : Bool) (currentUid : Option String)
    (bookings : List Booking) (bookingId : String)
    (newStartTime : Int) : MutOutcome :=
  if isGuest then ⟨bookings, .noop⟩
  else
    match bookings.find? (fun b => b.id == bookingId) with
    | none => ⟨bookings, .noop⟩
    | some booking =>
      if ¬ isAdmin ∧ booking.userId ≠ currentUid then ⟨bookings, .authError⟩
      else
        let durationMinutes := booking.endTime - booking.startTime
        let newEndTime := addMinutes newStartTime durationMinutes
        if isOverlap newStartTime newEndTime booking.classroomId bookings
            (some booking.id) none then ⟨bookings, .conflictError⟩
        else
          ⟨bookings.map fun b =>
              if b.id == bookingId then
                { booking with startTime := newStartTime, endTime := newEndTime }
              else b,
            .saved⟩

/-- Model of `handleBookingResize` from `src/App.tsx` (lines 433-459): only the end
time changes; same guest/ownership/overlap gating as a move. -/
def handleBookingResize (isGuest isAdmin : Bool) (currentUid : Option String)
    (bookings : List Booking) (bookingId : String)
    (newEndTime : Int) : MutOutcome :=
  if isGuest then ⟨bookings, .noop⟩
  else
    match bookings.find? (fun b => b.id == bookingId) with
    | none => ⟨bookings, .noop⟩
    | some booking =>
      if ¬ isAdmin ∧ booking.userId ≠ currentUid then ⟨bookings, .authError⟩
      else
        if isOverlap booking.startTime newEndTime booking.classroomId bookings
            (some booking.id) none then ⟨bookings, .conflictError⟩
        else
          ⟨bookings.map fun b =>
              if b.id == bookingId then { booking with endTime := newEndTime }
              else b,
            .saved⟩

/-- Model of `handleDeleteBooking` from `src/App.tsx` (lines 603-619), as the corpus
transformation it performs.  Series scope looks the target up by id and
removes every booking sharing its (truthy) `seriesId`; when the target is
missing or has no truthy `seriesId` the series branch deletes nothing.
Single scope removes by id.  The handler takes no caller identity: it
performs no authorization check of its own. -/
def handleDeleteBooking (bookings : List Booking) (idv : String)
    (deleteSeries : Bool) : List Booking :=
  if deleteSeries then
    match bookings.find? (fun b => b.id == idv) with
    | some booking =>
      match booking.seriesId with
      | some sid =>
        if sid == "" then bookings
        else bookings.filter fun b => !(b.seriesId == some sid)
      | none => bookings
    | none => bookings
  else bookings.filter fun b => !(b.id == idv)

/-- The weekly series-anchor recomputation of `handleSaveBooking`
(`src/App.tsx` lines 502-504): step the edited instance's new times back by
`index` weeks. -/
def computeSeriesAnchorWeekly (index : Nat) (s e : Int) : Int × Int :=
  (addWeeks s (-(index : Int)), addWeeks e (-(index : Int)))

/-- The weekday backtracking loop of `handleSaveBooking` (`src/App.tsx`
lines 505-513): `while (count < index) { step both times back one day;
if the resulting start is a weekday, count++ }`.  `fuel` bounds the
unfolding; `backtrackAux_eq` below shows `3 * index` fuel always suffices,
so `computeSeriesAnchorWeekday` computes the loop's true fixpoint. -/
def backtrackAux (index : Nat) :
    Nat → Nat → Int → Int → Int × Int
  | 0, _, s, e => (s, e)
  | fuel + 1, count, s, e =>
    if count < index then
      let s' := addDays s (-1)
      let e' := addDays e (-1)
      if isWeekend s' then backtrackAux index fuel count s' e'
      else backtrackAux index fuel (count + 1) s' e'
    else (s, e)

/-- The weekday series-anchor recomputation of `handleSaveBooking`. -/
def computeSeriesAnchorWeekday (index : Nat) (s e : Int) : Int × Int :=
  backtrackAux index (3 * index + 3) 0 s e

/-- Arithmetic progression of candidate instance start times: `n` times
starting at `a`, advancing by `step` minutes. -/
def stepTimes (step a : Int) : Nat → List Int
  | 0 => []
  | n + 1 => a :: stepTimes step (a + step) n

/-- One weekday step backwards: the closest strictly earlier day (at the
same clock time) that is not a weekend. -/
def backOne (s : Int) : Int :=
  if isWeekend (addDays s (-1)) then
    if isWeekend (addDays s (-2)) then addDays s (-3) else addDays s (-2)
  else addDays s (-1)

/-- Number of calendar days consumed by one backwards weekday step. -/
def gapOf (s : Int) : Nat :=
  if isWeekend (addDays s (-1)) then
    if isWeekend (addDays s (-2)) then 3 else 2
  else 1

/-- Iterate `k` backwards weekday steps. -/
def backIterM : Nat → Int → Int
  | 0, s => s
  | k + 1, s => backOne (backIterM k s)

/-- Total calendar days consumed by `k` backwards weekday steps. -/
def backDistM : Nat → Int → Nat
  | 0, _ => 0
  | k + 1, s => backDistM k s + gapOf (backIterM k s)

/-- Mirror of `baseBooking.startTime = newSeriesStart; baseBooking.endTime =
newSeriesEnd` — the seed with its times replaced by the recomputed anchor. -/
def withTimes (base : BookingTemplate) (s e : Int) : BookingTemplate :=
  { base with startTime := s, endTime := e }

/-- Outcome signal of `handleSaveBooking` (`src/App.tsx` lines 462-601).
`noUser` models the `if (!currentUser) return`; `cancelled` the declined
outside-period `confirm`; `conflict` the batch-check `alert` carrying the
conflicting generated instance and the colliding booking; the remaining
constructors tag which write path ran. -/
inductive SaveSignal where
  | noUser
  | cancelled
  | conflict (inst : Booking) (colliding : Booking)
  | savedSeries
  | savedSingle
  | created
deriving DecidableEq, Repr

/-- Resulting corpus plus signal of `handleSaveBooking`. -/
structure SaveOutcome where
  corpus : List Booking
  signal : SaveSignal
deriving DecidableEq, Repr

/-- The inputs of one `handleSaveBooking` call: auth state, the component
state it reads (`selectedClassroomId`, `bookings`, the active period,
`editingBooking`), the form data, the update scope, and the explicit
supply of minted uuids (`genSeriesId`/`genIds` for the generator, `freshId`
for a one-time create). -/
structure SaveArgs where
  signedIn : Bool
  uid : String
  email : Option String
  confirmOutside : Bool
  classroomId : String
  bookings : List Booking
  periodStart : Int
  periodEnd : Int
  editingBooking : Option Booking
  title : String
  description : Option String
  organizer : String
  startTime : Int
  endTime : Int
  btype : BookingType
  color : String
  dataSeriesId : Option String
  recurrenceEnd : Option Int
  updateScope : Scope
  genSeriesId : String
  genIds : Nat → String
  freshId : String

/-- Mirror of `currentUser.email || 'Unknown'`. -/
def emailOrUnknown (email : Option String) : String :=
  match email with
  | some s => if s == "" then "Unknown" else s
  | none => "Unknown"

/-- The `baseBooking` object assembled at the top of `handleSaveBooking`
(lines 469-482). -/
def baseBookingOf (a : SaveArgs) : BookingTemplate :=
  { classroomId := a.classroomId
    title := a.title
    description := a.description
    organizer := a.organizer
    startTime := a.startTime
    endTime := a.endTime
    type := a.btype
    seriesId := a.dataSeriesId
    color := a.color
    userId := some a.uid
    userEmail := some (emailOrUnknown a.email) }

/-- The TIME SHIFT / BACKTRACKING block (lines 495-522): on a series-scope
edit of a series member, locate the edited instance's index in the series
sorted ascending by start time and step the entered times back to the
series anchor — by whole weeks for `RecurringWeekly`, by single days
counting only non-weekend results for `RecurringWeekday`. -/
def shiftedBase (a : SaveArgs) : BookingTemplate :=
  match a.editingBooking with
  | some eb =>
    match eb.seriesId with
    | some σ =>
      if σ ≠ "" ∧ a.updateScope = Scope.series then
        match ((a.bookings.filter fun b => b.seriesId == some σ).mergeSort
            fun x y => decide (x.startTime ≤ y.startTime)).findIdx?
            (fun b => b.id == eb.id) with
        | some idx =>
          match a.btype with
          | .recurringWeekly =>
            withTimes (baseBookingOf a)
              (computeSeriesAnchorWeekly idx a.startTime a.endTime).1
              (computeSeriesAnchorWeekly idx a.startTime a.endTime).2
          | .recurringWeekday =>
            withTimes (baseBookingOf a)
              (computeSeriesAnchorWeekday idx a.startTime a.endTime).1
              (computeSeriesAnchorWeekday idx a.startTime a.endTime).2
          | .oneTime => baseBookingOf a
        | none => baseBookingOf a
      else baseBookingOf a
    | none => baseBookingOf a
  | none => baseBookingOf a

/-- Mirror of `editingBooking?.id || crypto.randomUUID()` for the one-time branch. -/
def oneTimeId (a : SaveArgs) : String :=
  match a.editingBooking with
  | some eb => if eb.id == "" then a.freshId else eb.id
  | none => a.freshId

/-- The single booking built by the non-recurrence branch (lines 530-536):
`{...baseBooking, id, seriesId: type === OneTime ? undefined :
editingBooking?.seriesId}`. -/
def oneTimeInstance (a : SaveArgs) : Booking :=
  { id := oneTimeId a
    classroomId := a.classroomId
    title := a.title
    description := a.description
    organizer := a.organizer
    startTime := a.startTime
    endTime := a.endTime
    type := a.btype
    seriesId := if a.btype = .oneTime then none
      else a.editingBooking.bind fun eb => eb.seriesId
    color := a.color
    userId := some a.uid
    userEmail := some (emailOrUnknown a.email) }

/-- The `newBookingsToAdd` list (lines 486-536): the recurrence branch generates the
full replacement set from the (possibly back-shifted) base when creating or
editing with series scope, and is empty for a single-scope edit of a
recurring booking; otherwise the one-time instance. -/
def newBookingsFor (a : SaveArgs) : List Booking :=
  match a.recurrenceEnd with
  | some re =>
    if a.btype ≠ .oneTime then
      if a.updateScope = Scope.series ∨ a.editingBooking = none then
        generateRecurringBookings a.genSeriesId a.genIds (shiftedBase a) re
          a.btype
      else []
    else [oneTimeInstance a]
  | none => [oneTimeInstance a]

/-- Mirror of `editingBooking?.id`, passed as `excludeBookingId` to the batch check. -/
def exIdOf (a : SaveArgs) : Option String :=
  a.editingBooking.map fun eb => eb.id

/-- Mirror of `(editingBooking && updateScope === 'series') ? editingBooking.seriesId
: undefined`. -/
def exSidOf (a : SaveArgs) : Option String :=
  match a.editingBooking, a.updateScope with
  | some eb, Scope.series => eb.seriesId
  | _, _ => none

/-- The BATCH CONFLICT CHECK loop (lines 538-562): walk the new instances
in order; an instance is checked only when its start lies within the active
period, and the first conflict aborts with that instance and the colliding
booking. -/
def firstPeriodConflict (periodStart periodEnd : Int) (cid : String)
    (bookings : List Booking) (exId exSid : Option String) :
    List Booking → Option (Booking × Booking)
  | [] => none
  | nb :: rest =>
    if periodStart ≤ nb.startTime ∧ nb.startTime ≤ periodEnd then
      match findOverlappingBooking nb.startTime nb.endTime cid bookings
          exId exSid with
      | some c => some (nb, c)
      | none =>
        firstPeriodConflict periodStart periodEnd cid bookings exId exSid rest
    else firstPeriodConflict periodStart periodEnd cid bookings exId exSid rest

/-- The `baseBooking` value in effect at the write phase: the back-shifted
base when the recurrence branch ran, the plain base otherwise. -/
def effectiveBase (a : SaveArgs) : BookingTemplate :=
  match a.recurrenceEnd with
  | some _ => if a.btype ≠ .oneTime then shiftedBase a else baseBookingOf a
  | none => baseBookingOf a

/-- Mirror of `updatedInstance = {...baseBooking, id: editingBooking.id, seriesId:
editingBooking.seriesId}` (lines 578-582). -/
def updatedInstance (a : SaveArgs) (eb : Booking) : Booking :=
  { id := eb.id
    classroomId := (effectiveBase a).classroomId
    title := (effectiveBase a).title
    description := (effectiveBase a).description
    organizer := (effectiveBase a).organizer
    startTime := (effectiveBase a).startTime
    endTime := (effectiveBase a).endTime
    type := (effectiveBase a).type
    seriesId := eb.seriesId
    color := (effectiveBase a).color
    userId := (effectiveBase a).userId
    userEmail := (effectiveBase a).userEmail }

/-- Model of `handleSaveBooking` from `src/App.tsx` (lines 462-601), as the corpus
transformation plus signal it performs.  The batch conflict check runs
before any write; on conflict the corpus is returned unchanged.  A series
update deletes the old series (or the lone instance when the target has no
truthy `seriesId`) and inserts the replacement set; a single update replaces
the target in place; a create appends the new instances. -/
def handleSaveBooking (a : SaveArgs) : SaveOutcome :=
  if ¬ a.signedIn then ⟨a.bookings, SaveSignal.noUser⟩
  else if (a.startTime < a.periodStart ∨ a.startTime > a.periodEnd) ∧
      ¬ a.confirmOutside then ⟨a.bookings, SaveSignal.cancelled⟩
  else
    match firstPeriodConflict a.periodStart a.periodEnd a.classroomId
        a.bookings (exIdOf a) (exSidOf a) (newBookingsFor a) with
    | some (nb, c) => ⟨a.bookings, SaveSignal.conflict nb c⟩
    | none =>
      match a.editingBooking with
      | some eb =>
        if (newBookingsFor a).length > 1 ∧ a.updateScope = Scope.series then
          match eb.seriesId with
          | some σ =>
            if σ ≠ "" then
              ⟨(a.bookings.filter fun b => !(b.seriesId == some σ)) ++
                newBookingsFor a, SaveSignal.savedSeries⟩
            else
              ⟨(a.bookings.filter fun b => !(b.id == eb.id)) ++
                newBookingsFor a, SaveSignal.savedSeries⟩
          | none =>
            ⟨(a.bookings.filter fun b => !(b.id == eb.id)) ++
              newBookingsFor a, SaveSignal.savedSeries⟩
        else
          ⟨a.bookings.map fun b =>
              if b.id == eb.id then updatedInstance a eb else b,
            SaveSignal.savedSingle⟩
      | none => ⟨a.bookings ++ newBookingsFor a, SaveSignal.created⟩

/-- Concrete arguments for the C2 witness: a fresh weekly creation whose
third generated instance (Wednesday of week 2, 10:00-11:00) collides with
an existing booking, all instances inside the active period. -/
def saveRejectArgs : SaveArgs :=
  { signedIn := true
    uid := "u"
    email := none
    confirmOutside := false
    classroomId := "c1"
    bookings := [⟨"b0", "c1", "busy", none, "o", 23640, 23700,
      .oneTime, none, "blue", none, none⟩]
    periodStart := 0
    periodEnd := 43200
    editingBooking := none
    title := "t"
    description := none
    organizer := "o"
    startTime := 3480
    endTime := 3540
    btype := BookingType.recurringWeekly
    color := "green"
    dataSeriesId := none
    recurrenceEnd := some 23040
    updateScope := Scope.series
    genSeriesId := "S"
    genIds := fun _ => "g"
    freshId := "f" }

/-- Concrete arguments for the C2 counterexample: the second weekly
instance falls after `periodEnd`, overlaps an existing booking in the same
classroom, and the outside-period confirmation is accepted. -/
def saveSkipArgs : SaveArgs :=
  { signedIn := true
    uid := "u"
    email := none
    confirmOutside := true
    classroomId := "c1"
    bookings := [⟨"b0", "c1", "busy", none, "o", 12060, 12120,
      .oneTime, none, "blue", none, none⟩]
    periodStart := 0
    periodEnd := 1000
    editingBooking := none
    title := "t"
    description := none
    organizer := "o"
    startTime := 1980
    endTime := 2040
    btype := BookingType.recurringWeekly
    color := "green"
    dataSeriesId := none
    recurrenceEnd := some 11520
    updateScope := Scope.series
    genSeriesId := "S"
    genIds := fun _ => "g"
    freshId := "f" }

/-- The branch structure of the overlap predicate, with no exclusions,
reduces to the pure interval condition. -/
theorem overlapPred_none_iff (s e : Int) (cid : String) (b : Booking) :
    ((if b.classroomId ≠ cid then false
      else if truthyEqId none b.id then false
      else if truthyEqSeries none b.seriesId then false
      else decide (s < b.endTime) && decide (e > b.startTime)) = true) ↔
      b.classroomId = cid ∧ s < b.endTime ∧ e > b.startTime := by
  by_cases h : b.classroomId = cid <;>
    simp [h, truthyEqId, truthyEqSeries, and_assoc]

/-- C1: with no exclusions supplied, `isOverlap` / `findOverlappingBooking`
report a conflict precisely when some existing booking of the same classroom
satisfies `s < b.endTime ∧ e > b.startTime`; in particular intervals that
merely share a boundary never conflict, a different classroom never
conflicts, and any nonzero intersection in the same classroom does. -/
theorem overlap_no_exclusions_spec (s e : Int) (cid : String)
    (bs : List Booking) :
    (isOverlap s e cid bs none none = true ↔
      ∃ b ∈ bs, b.classroomId = cid ∧ s < b.endTime ∧ e > b.startTime) ∧
    ((findOverlappingBooking s e cid bs none none).isSome ↔
      ∃ b ∈ bs, b.classroomId = cid ∧ s < b.endTime ∧ e > b.startTime) ∧
    (∀ b : Booking, b.endTime = s ∨ b.startTime = e →
      isOverlap s e cid [b] none none = false) ∧
    (∀ b : Booking, b.classroomId ≠ cid →
      isOverlap s e cid [b] none none = false) ∧
    (∀ b : Booking, b.classroomId = cid →
      max s b.startTime < min e b.endTime →
      isOverlap s e cid [b] none none = true) := by
  refine ⟨?_, ?_, ?_, ?_, ?_⟩
  · simp only [isOverlap, List.any_eq_true, overlapPred_none_iff]
  · simp only [findOverlappingBooking, List.find?_isSome, overlapPred_none_iff]
  · intro b hb
    simp only [isOverlap, List.any_eq_false]
    intro c hc
    rw [List.mem_singleton] at hc
    subst hc
    intro hp
    rw [overlapPred_none_iff] at hp
    rcases hb with h | h <;> omega
  · intro b hb
    simp only [isOverlap, List.any_eq_false]
    intro c hc
    rw [List.mem_singleton] at hc
    subst hc
    intro hp
    rw [overlapPred_none_iff] at hp
    exact hb hp.1
  · intro b hb hlt
    simp only [isOverlap, List.any_eq_true]
    refine ⟨b, List.mem_singleton.mpr rfl, ?_⟩
    rw [overlapPred_none_iff]
    exact ⟨hb, by omega, by omega⟩

/-- Witness for C1 at a concrete overlapping pair. -/
theorem overlap_no_exclusions_spec_witness :
    isOverlap 540 600 "c1"
      [⟨"b1", "c1", "t", none, "o", 500, 560, .oneTime, none, "blue", none, none⟩]
      none none = true := by
  have h := (overlap_no_exclusions_spec 540 600 "c1"
    [⟨"b1", "c1", "t", none, "o", 500, 560, .oneTime, none, "blue", none, none⟩]).1
  exact h.mpr ⟨_, List.mem_singleton.mpr rfl, rfl, by decide, by decide⟩

/-- C10: for identical arguments, `isOverlap` holds iff
`findOverlappingBooking` returns some booking, and the latter returns the
first booking (in list order) satisfying the shared conflict relation. -/
theorem isOverlap_iff_findOverlappingBooking (s e : Int) (cid : String)
    (bs : List Booking) (exI exS : Option String) :
    (isOverlap s e cid bs exI exS = true ↔
      (findOverlappingBooking s e cid bs exI exS).isSome) ∧
    findOverlappingBooking s e cid bs exI exS =
      (bs.filter fun b =>
        if b.classroomId ≠ cid then false
        else if truthyEqId exI b.id then false
        else if truthyEqSeries exS b.seriesId then false
        else decide (s < b.endTime) && decide (e > b.startTime)).head? := by
  constructor
  · simp only [isOverlap, findOverlappingBooking, List.any_eq_true,
      List.find?_isSome]
  · simp only [findOverlappingBooking]
    induction bs with
    | nil => rfl
    | cons b rest ih =>
      by_cases h : (if b.classroomId ≠ cid then false
          else if truthyEqId exI b.id then false
          else if truthyEqSeries exS b.seriesId then false
          else decide (s < b.endTime) && decide (e > b.startTime)) = true
      · simp only [List.find?_cons, List.filter_cons, h, if_true,
          List.head?_cons]
      · rw [Bool.not_eq_true] at h
        simp only [List.find?_cons, List.filter_cons, h, Bool.false_eq_true,
          if_false]
        exact ih

/-- C6: a booking whose id equals a truthy `excludeBookingId`, or whose
`seriesId` equals a truthy `excludeSeriesId`, is never reported as a
conflict; consequently, when a series-scope edit passes the whole series id,
a corpus consisting solely of that series can never produce a conflict. -/
theorem exclusion_spec (s e : Int) (cid : String) (bs : List Booking)
    (exI exS : Option String) (x σ : String) :
    (x ≠ "" → ∀ b, findOverlappingBooking s e cid bs (some x) exS = some b →
      b.id ≠ x) ∧
    (σ ≠ "" → ∀ b, findOverlappingBooking s e cid bs exI (some σ) = some b →
      b.seriesId ≠ some σ) ∧
    (σ ≠ "" → (∀ b ∈ bs, b.seriesId = some σ) →
      isOverlap s e cid bs exI (some σ) = false) := by
  refine ⟨?_, ?_, ?_⟩
  · intro hx b hfind hid
    have hp := List.find?_some hfind
    by_cases h : b.classroomId = cid
    · rw [if_neg (by simp [h]),
        if_pos (show truthyEqId (some x) b.id = true by
          simp [truthyEqId, hid, hx])] at hp
      simp at hp
    · rw [if_pos h] at hp
      simp at hp
  · intro hσ b hfind hsid
    have hp := List.find?_some hfind
    by_cases h : b.classroomId = cid
    · rw [if_neg (by simp [h])] at hp
      rw [if_neg (show ¬ truthyEqId exI b.id = true from ?_)] at hp
      · rw [if_pos (show truthyEqSeries (some σ) b.seriesId = true by
            simp [truthyEqSeries, hsid, hσ])] at hp
        simp at hp
      · intro hid
        rw [if_pos hid] at hp
        simp at hp
    · rw [if_pos h] at hp
      simp at hp
  · intro hσ hall
    simp only [isOverlap, List.any_eq_false]
    intro b hb
    intro hp
    by_cases h : b.classroomId = cid
    · rw [if_neg (by simp [h])] at hp
      by_cases hid : truthyEqId exI b.id = true
      · rw [if_pos hid] at hp
        simp at hp
      · rw [if_neg hid,
          if_pos (show truthyEqSeries (some σ) b.seriesId = true by
            simp [truthyEqSeries, hall b hb, hσ])] at hp
        simp at hp
    · rw [if_pos h] at hp
      simp at hp

/-- Witness for C6: a series-scope exclusion silences the series' own
member. -/
theorem exclusion_spec_witness :
    isOverlap 0 60 "c1"
      [⟨"b1", "c1", "t", none, "o", 0, 60, .recurringWeekly, some "S", "blue",
        none, none⟩]
      none (some "S") = false := by
  refine (exclusion_spec 0 60 "c1" _ none none "x" "S").2.2 (by decide) ?_
  intro b hb
  rw [List.mem_singleton] at hb
  subst hb
  rfl

/-- The generator loop emits at most one instance per unit of fuel. -/
theorem genLoop_length_le (base : BookingTemplate) (σ : String)
    (ids : Nat → String) (L : Int) (ty : BookingType) :
    ∀ (fuel : Nat) (curS curE : Int) (k : Nat),
      (genLoop base σ ids L ty fuel curS curE k).length ≤ fuel := by
  intro fuel
  induction fuel with
  | zero => intro curS curE k; simp [genLoop]
  | succ n ih =>
    intro curS curE k
    simp only [genLoop]
    by_cases h : curS < L
    · rw [if_pos h]
      cases ty with
      | recurringWeekly =>
        simpa using Nat.succ_le_succ (ih (curS + 10080) (curE + 10080) (k + 1))
      | recurringWeekday =>
        by_cases hw : isWeekend curS = true
        · rw [if_pos hw]
          exact le_trans (ih (curS + 1440) (curE + 1440) k) (Nat.le_succ n)
        · rw [if_neg hw]
          simpa using Nat.succ_le_succ (ih (curS + 1440) (curE + 1440) (k + 1))
      | oneTime => simp
    · rw [if_neg h]; simp

/-- C7: `generateRecurringBookings` always terminates with at most 365
instances — the loop body runs at most 365 times (the `safety` counter) for
every seed, recurrence end date and recurrence kind, and the instances
produced so far are returned rather than an error being raised. -/
theorem generateRecurring_cap (σ : String) (ids : Nat → String)
    (base : BookingTemplate) (re : Int) (ty : BookingType) :
    (generateRecurringBookings σ ids base re ty).length ≤ 365 := by
  unfold generateRecurringBookings
  exact genLoop_length_le base σ ids (addDays re 1) ty 365
    base.startTime base.endTime 0

/-- Closed form of each position of the weekly generator loop. -/
theorem genLoop_weekly_getElem? (base : BookingTemplate) (σ : String)
    (ids : Nat → String) (L : Int) :
    ∀ (fuel : Nat) (curS curE : Int) (k i : Nat),
      (genLoop base σ ids L .recurringWeekly fuel curS curE k)[i]? =
        if i < fuel ∧ curS + 10080 * (i : Int) < L then
          some (mkInstance base σ (ids (k + i)) (curS + 10080 * (i : Int))
            (curE + 10080 * (i : Int)) .recurringWeekly)
        else none := by
  intro fuel
  induction fuel with
  | zero =>
    intro curS curE k i
    rw [if_neg (by omega)]
    simp [genLoop]
  | succ n ih =>
    intro curS curE k i
    simp only [genLoop]
    by_cases h : curS < L
    · rw [if_pos h]
      cases i with
      | zero =>
        rw [List.getElem?_cons_zero, if_pos (by constructor <;> omega)]
        norm_num
      | succ j =>
        rw [List.getElem?_cons_succ, ih]
        have harg : curS + 10080 + 10080 * (j : Int) =
            curS + 10080 * ((j : Int) + 1) := by ring
        have harg2 : curE + 10080 + 10080 * (j : Int) =
            curE + 10080 * ((j : Int) + 1) := by ring
        have hk : k + 1 + j = k + (j + 1) := by omega
        have hcond : (j < n ∧ curS + 10080 + 10080 * (j : Int) < L) ↔
            (j + 1 < n + 1 ∧ curS + 10080 * ((j + 1 : Nat) : Int) < L) := by
          push_cast
          constructor <;> (rintro ⟨h1, h2⟩; exact ⟨by omega, by linarith⟩)
        rw [if_congr hcond rfl rfl, harg, harg2, hk]
        push_cast
        rfl
    · rw [if_neg h, if_neg (by rintro ⟨h1, h2⟩; apply h; nlinarith [Int.natCast_nonneg i])]
      simp

/-- The weekday generator loop walks the daily progression, truncates at the
first start not before the end limit, and keeps exactly the non-weekend
days. -/
theorem genLoop_weekday_map (base : BookingTemplate) (σ : String)
    (ids : Nat → String) (L : Int) :
    ∀ (fuel : Nat) (curS curE : Int) (k : Nat),
      (genLoop base σ ids L .recurringWeekday fuel curS curE k).map
          (fun b => b.startTime) =
        ((stepTimes 1440 curS fuel).takeWhile fun t => decide (t < L)).filter
          fun t => !(isWeekend t) := by
  intro fuel
  induction fuel with
  | zero => intro curS curE k; simp [genLoop, stepTimes]
  | succ n ih =>
    intro curS curE k
    simp only [genLoop, stepTimes]
    by_cases h : curS < L
    · rw [if_pos h, List.takeWhile_cons_of_pos (by simpa using h)]
      by_cases hw : isWeekend curS = true
      · rw [if_pos hw, List.filter_cons_of_neg (by simpa using hw)]
        exact ih (curS + 1440) (curE + 1440) k
      · rw [if_neg hw,
          List.filter_cons_of_pos (by simpa using hw)]
        simp only [List.map_cons, mkInstance]
        rw [ih (curS + 1440) (curE + 1440) (k + 1)]
    · rw [if_neg h, List.takeWhile_cons_of_neg (by simpa using h)]
      simp

/-- Every instance the generator loop emits carries the minted series id,
the requested type, and the seed's start-to-end offset. -/
theorem genLoop_mem_inv (base : BookingTemplate) (σ : String)
    (ids : Nat → String) (L : Int) (ty : BookingType) :
    ∀ (fuel : Nat) (curS curE : Int) (k : Nat) (b : Booking),
      b ∈ genLoop base σ ids L ty fuel curS curE k →
        b.seriesId = some σ ∧ b.type = ty ∧
          b.endTime = b.startTime + (curE - curS) := by
  intro fuel
  induction fuel with
  | zero => intro curS curE k b hb; simp [genLoop] at hb
  | succ n ih =>
    intro curS curE k b hb
    simp only [genLoop] at hb
    by_cases h : curS < L
    · rw [if_pos h] at hb
      cases ty with
      | recurringWeekly =>
        rcases List.mem_cons.1 hb with rfl | hb'
        · refine ⟨rfl, rfl, by simp [mkInstance]⟩
        · have := ih (curS + 10080) (curE + 10080) (k + 1) b hb'
          exact ⟨this.1, this.2.1, by have h3 := this.2.2; omega⟩
      | recurringWeekday =>
        by_cases hw : isWeekend curS = true
        · rw [if_pos hw] at hb
          have := ih (curS + 1440) (curE + 1440) k b hb
          exact ⟨this.1, this.2.1, by have h3 := this.2.2; omega⟩
        · rw [if_neg hw] at hb
          rcases List.mem_cons.1 hb with rfl | hb'
          · refine ⟨rfl, rfl, by simp [mkInstance]⟩
          · have := ih (curS + 1440) (curE + 1440) (k + 1) b hb'
            exact ⟨this.1, this.2.1, by have h3 := this.2.2; omega⟩
      | oneTime => simp at hb
    · rw [if_neg h] at hb
      simp at hb

/-- The start times of a weekday run of the generator, from the seed. -/
theorem generateRecurring_weekday_times (σ : String) (ids : Nat → String)
    (base : BookingTemplate) (re : Int) :
    (generateRecurringBookings σ ids base re .recurringWeekday).map
        (fun b => b.startTime) =
      ((stepTimes 1440 base.startTime 365).takeWhile
        fun t => decide (t < re + 1440)).filter fun t => !(isWeekend t) := by
  unfold generateRecurringBookings
  rw [genLoop_weekday_map]
  have : addDays re 1 = re + 1440 := by
    simp [addDays, minutesPerDay]
  rw [this]

/-- C4: the weekly generator emits one instance every 7 days from the seed's
start, includes an instance landing exactly on the (inclusive) recurrence
the one minted series id and the seed's duration, and the concrete
Monday-09:00 seed with end date 21 days out yields exactly the 4 instances
of weeks 0-3, 7 days apart. -/
theorem generateRecurring_weekly_spec :
    (∀ (σ : String) (ids : Nat → String) (base : BookingTemplate) (re : Int)
      (i : Nat),
      (generateRecurringBookings σ ids base re .recurringWeekly)[i]? =
        if i < 365 ∧ base.startTime + 10080 * (i : Int) < re + 1440 then
          some (mkInstance base σ (ids i)
            (base.startTime + 10080 * (i : Int))
            (base.endTime + 10080 * (i : Int)) .recurringWeekly)
        else none) ∧
    (generateRecurringBookings "sid" (fun _ => "i")
        ⟨"c1", "t", none, "o", 540, 600, .recurringWeekly, none, "blue",
          none, none⟩ 30240 .recurringWeekly).map
        (fun b => (b.startTime, b.endTime, b.seriesId)) =
      [(540, 600, some "sid"), (10620, 10680, some "sid"),
        (20700, 20760, some "sid"), (30780, 30840, some "sid")] := by
  constructor
  · intro σ ids base re i
    unfold generateRecurringBookings
    rw [genLoop_weekly_getElem?]
    have : addDays re 1 = re + 1440 := by simp [addDays, minutesPerDay]
    rw [this]
    norm_num
  · rfl

/-- C5: the weekday generator advances one calendar day per loop step,
emits an instance only on non-weekend days (weekend days consume a step but
produce nothing), and the concrete Friday seed with end date 3 days out
yields exactly the Friday and following-Monday instances. -/
theorem generateRecurring_weekday_spec :
    (∀ (σ : String) (ids : Nat → String) (base : BookingTemplate) (re : Int),
      ((generateRecurringBookings σ ids base re .recurringWeekday).map
          (fun b => b.startTime) =
        ((stepTimes 1440 base.startTime 365).takeWhile
          fun t => decide (t < re + 1440)).filter fun t => !(isWeekend t)) ∧
      (generateRecurringBookings σ ids base re .recurringWeekday).filter
          (fun b => isWeekend b.startTime) = []) ∧
    (generateRecurringBookings "sid" (fun _ => "i")
        ⟨"c1", "t", none, "o", 6300, 6360, .recurringWeekday, none, "blue",
          none, none⟩ 10080 .recurringWeekday).map
        (fun b => b.startTime) = [6300, 10620] := by
  refine ⟨fun σ ids base re => ⟨generateRecurring_weekday_times σ ids base re, ?_⟩, ?_⟩
  · rw [List.filter_eq_nil_iff]
    intro b hb
    have hmem : b.startTime ∈
        (generateRecurringBookings σ ids base re .recurringWeekday).map
          (fun b => b.startTime) := List.mem_map_of_mem _ hb
    rw [generateRecurring_weekday_times] at hmem
    have := (List.mem_filter.1 hmem).2
    simp only [Bool.not_eq_true'] at this
    simp [this]
  · rfl

/-- C8 counterexample: on a target with no `seriesId`, the series-scope
delete leaves the corpus untouched, while a single-instance delete of the
same target removes it — so the series scope does not degrade to a
single-instance delete. -/
theorem handleDelete_noSeriesId_cex :
    handleDeleteBooking
        [⟨"b1", "c1", "t", none, "o", 0, 60, .oneTime, none, "blue", none,
          none⟩] "b1" true =
      [⟨"b1", "c1", "t", none, "o", 0, 60, .oneTime, none, "blue", none,
        none⟩] ∧
    handleDeleteBooking
        [⟨"b1", "c1", "t", none, "o", 0, 60, .oneTime, none, "blue", none,
          none⟩] "b1" false = [] := by
  constructor <;> rfl

/-- C8 (amended): single-scope delete removes exactly the booking(s) with
the given id; series-scope delete on a found target with a truthy
`seriesId` removes exactly the bookings sharing it; on a target without a
`seriesId` the series scope deletes nothing (the corpus is unchanged); and
with unique ids a second series delete performs no further deletions. -/
theorem handleDeleteBooking_spec (bookings : List Booking) (idv : String) :
    (∀ x, x ∈ handleDeleteBooking bookings idv false ↔
      x ∈ bookings ∧ x.id ≠ idv) ∧
    (∀ b σ, bookings.find? (fun c => c.id == idv) = some b →
      b.seriesId = some σ → σ ≠ "" →
      ∀ x, x ∈ handleDeleteBooking bookings idv true ↔
        x ∈ bookings ∧ x.seriesId ≠ some σ) ∧
    (∀ b, bookings.find? (fun c => c.id == idv) = some b →
      b.seriesId = none →
      handleDeleteBooking bookings idv true = bookings) ∧
    ((bookings.map fun c => c.id).Nodup →
      handleDeleteBooking (handleDeleteBooking bookings idv true) idv true =
        handleDeleteBooking bookings idv true) := by
  refine ⟨?_, ?_, ?_, ?_⟩
  · intro x
    simp [handleDeleteBooking]
  · intro b σ hfind hsid hσ x
    unfold handleDeleteBooking
    rw [if_pos rfl, hfind]
    simp only [hsid]
    rw [if_neg (by simpa using hσ)]
    simp
  · intro b hfind hsid
    unfold handleDeleteBooking
    rw [if_pos rfl, hfind]
    simp only [hsid]
  · intro hnodup
    rcases hf : bookings.find? (fun c => c.id == idv) with - | b
    · have hinner : handleDeleteBooking bookings idv true = bookings := by
        unfold handleDeleteBooking
        rw [if_pos rfl, hf]
      rw [hinner]
      exact hinner
    · rcases hs : b.seriesId with - | σ
      · have hinner : handleDeleteBooking bookings idv true = bookings := by
          unfold handleDeleteBooking
          rw [if_pos rfl, hf]
          simp only [hs]
        rw [hinner]
        exact hinner
      · by_cases hσ : σ = ""
        · subst hσ
          have hinner : handleDeleteBooking bookings idv true = bookings := by
            unfold handleDeleteBooking
            rw [if_pos rfl, hf]
            simp only [hs]
            simp
          rw [hinner]
          exact hinner
        · have hb_mem : b ∈ bookings := List.mem_of_find?_eq_some hf
          have hb_id : b.id = idv := by
            have := List.find?_some hf
            simpa using this
          have hinner : handleDeleteBooking bookings idv true =
              bookings.filter fun c => !(c.seriesId == some σ) := by
            unfold handleDeleteBooking
            rw [if_pos rfl, hf]
            simp only [hs]
            rw [if_neg (by simpa using hσ)]
          have h2 : (bookings.filter
              fun c => !(c.seriesId == some σ)).find?
              (fun c => c.id == idv) = none := by
            rw [List.find?_eq_none]
            intro x hx
            have hx1 := (List.mem_filter.1 hx).1
            have hx2 := (List.mem_filter.1 hx).2
            intro hxid
            have hxid' : x.id = idv := by simpa using hxid
            have hxb : x = b :=
              List.inj_on_of_nodup_map hnodup hx1 hb_mem
                (by rw [hxid', hb_id])
            rw [hxb, hs] at hx2
            simp at hx2
          rw [hinner]
          unfold handleDeleteBooking
          rw [if_pos rfl, h2]

/-- Witness for C8 (amended): on a concrete two-member series corpus, the
second series delete is a no-op. -/
theorem handleDeleteBooking_spec_witness :
    handleDeleteBooking
        (handleDeleteBooking
          [⟨"b1", "c1", "t", none, "o", 0, 60, .recurringWeekly, some "S",
            "blue", none, none⟩,
           ⟨"b2", "c1", "t", none, "o", 10080, 10140, .recurringWeekly,
            some "S", "blue", none, none⟩] "b1" true) "b1" true =
      handleDeleteBooking
        [⟨"b1", "c1", "t", none, "o", 0, 60, .recurringWeekly, some "S",
          "blue", none, none⟩,
         ⟨"b2", "c1", "t", none, "o", 10080, 10140, .recurringWeekly,
          some "S", "blue", none, none⟩] "b1" true := by
  exact (handleDeleteBooking_spec _ "b1").2.2.2 (by decide)

/-- C9 counterexample: `handleDeleteBooking` takes no caller identity at
all, so a booking owned by another user is removed with no authorization
error — the deletion is not rejected for a non-admin, non-owner caller. -/
theorem handleDelete_noAuth_cex :
    handleDeleteBooking
        [⟨"b1", "c1", "t", none, "o", 0, 60, .oneTime, none, "blue",
          some "alice", none⟩] "b1" false = [] ∧
    ([] : List Booking) ≠
      [⟨"b1", "c1", "t", none, "o", 0, 60, .oneTime, none, "blue",
        some "alice", none⟩] := by
  exact ⟨rfl, by simp⟩

/-- C9 (amended): move and resize do reject a non-guest, non-admin,
non-owner caller: the corpus is unchanged and the signal is the
authorization error, which is distinct from the scheduling-conflict signal;
the delete handler, by contrast, performs no ownership check of its own
(see the counterexample). -/
theorem moveResize_auth_spec (isAdmin : Bool) (currentUid : Option String)
    (bookings : List Booking) (bookingId : String) (newStart newEnd : Int)
    (b : Booking)
    (hfind : bookings.find? (fun c => c.id == bookingId) = some b)
    (hAdmin : isAdmin = false) (hOwn : b.userId ≠ currentUid) :
    handleBookingMove false isAdmin currentUid bookings bookingId newStart =
      ⟨bookings, .authError⟩ ∧
    handleBookingResize false isAdmin currentUid bookings bookingId newEnd =
      ⟨bookings, .authError⟩ ∧
    MutSignal.authError ≠ MutSignal.conflictError := by
  subst hAdmin
  refine ⟨?_, ?_, by simp⟩
  · simp [handleBookingMove, hfind, hOwn]
  · simp [handleBookingResize, hfind, hOwn]

/-- Witness for C9 (amended) at a concrete non-owner caller. -/
theorem moveResize_auth_spec_witness :
    handleBookingMove false false (some "bob")
        [⟨"b1", "c1", "t", none, "o", 0, 60, .oneTime, none, "blue",
          some "alice", none⟩] "b1" 120 =
      ⟨[⟨"b1", "c1", "t", none, "o", 0, 60, .oneTime, none, "blue",
          some "alice", none⟩], .authError⟩ := by
  exact (moveResize_auth_spec false (some "bob")
    [⟨"b1", "c1", "t", none, "o", 0, 60, .oneTime, none, "blue",
      some "alice", none⟩] "b1" 120 180
    ⟨"b1", "c1", "t", none, "o", 0, 60, .oneTime, none, "blue",
      some "alice", none⟩ rfl rfl (by simp)).1

/-- A day that is preceded (going back 1 and 2 days) by weekend days is
itself at most two days past the weekend, so three days back is a weekday. -/
theorem notWeekend_back3 (t : Int)
    (h1 : isWeekend (addDays t (-1)) = true)
    (h2 : isWeekend (addDays t (-2)) = true) :
    isWeekend (addDays t (-3)) = false := by
  simp only [isWeekend, addDays, minutesPerDay, decide_eq_true_eq,
    decide_eq_false_iff_not] at h1 h2 ⊢
  omega

theorem backOne_notWeekend (s : Int) : isWeekend (backOne s) = false := by
  unfold backOne
  by_cases h1 : isWeekend (addDays s (-1)) = true
  · rw [if_pos h1]
    by_cases h2 : isWeekend (addDays s (-2)) = true
    · rw [if_pos h2]
      exact notWeekend_back3 s h1 h2
    · rw [if_neg h2]
      simpa using h2
  · rw [if_neg h1]
    simpa using h1

theorem backOne_eq_sub (s : Int) : backOne s = s - 1440 * (gapOf s : Int) := by
  unfold backOne gapOf
  by_cases h1 : isWeekend (addDays s (-1)) = true
  · rw [if_pos h1, if_pos h1]
    by_cases h2 : isWeekend (addDays s (-2)) = true
    · rw [if_pos h2, if_pos h2]
      simp only [addDays, minutesPerDay]
      push_cast
      ring
    · rw [if_neg h2, if_neg h2]
      simp only [addDays, minutesPerDay]
      push_cast
      ring
  · rw [if_neg h1, if_neg h1]
    simp only [addDays, minutesPerDay]
    push_cast
    ring

theorem backIterM_backOne_comm :
    ∀ (k : Nat) (s : Int), backIterM k (backOne s) = backOne (backIterM k s) := by
  intro k
  induction k with
  | zero => intro s; rfl
  | succ n ih =>
    intro s
    show backOne (backIterM n (backOne s)) = backOne (backIterM (n + 1) s)
    rw [ih s]
    rfl

theorem stepTimes_append (step a : Int) (m n : Nat) :
    stepTimes step a (m + n) =
      stepTimes step a m ++ stepTimes step (a + step * m) n := by
  induction m generalizing a with
  | zero => simp [stepTimes]
  | succ j ih =>
    have hsum : j + 1 + n = (j + n) + 1 := by omega
    rw [hsum]
    simp only [stepTimes, List.cons_append]
    rw [ih (a + step)]
    have : a + step + step * (j : Int) = a + step * ((j : Int) + 1) := by ring
    rw [this]
    push_cast
    rfl

theorem stepTimes_mem (step a x : Int) (n : Nat)
    (hx : x ∈ stepTimes step a n) : ∃ j : Nat, j < n ∧ x = a + step * j := by
  induction n generalizing a with
  | zero => simp [stepTimes] at hx
  | succ m ih =>
    simp only [stepTimes, List.mem_cons] at hx
    rcases hx with rfl | hx'
    · exact ⟨0, by omega, by simp⟩
    · rcases ih (a + step) hx' with ⟨j, hj, rfl⟩
      exact ⟨j + 1, by omega, by push_cast; ring⟩

theorem takeWhile_append_all {α : Type} (p : α → Bool) (xs ys : List α)
    (h : ∀ x ∈ xs, p x = true) :
    (xs ++ ys).takeWhile p = xs ++ ys.takeWhile p := by
  induction xs with
  | nil => simp
  | cons a l ih =>
    rw [List.cons_append, List.takeWhile_cons_of_pos (h a (by simp))]
    rw [ih (fun x hx => h x (by simp [hx]))]
    rfl

/-- Peeling one backwards weekday step off the front of the weekday-filtered
daily progression: the days skipped between `backOne x` and `x` are all
weekend days. -/
theorem filter_stepTimes_backOne (x : Int) (m : Nat) :
    (stepTimes 1440 (backOne x) (m + gapOf x)).filter
        (fun t => !(isWeekend t)) =
      backOne x ::
        (stepTimes 1440 x m).filter (fun t => !(isWeekend t)) := by
  have e1 : addDays x (-3) + 1440 = addDays x (-2) := by
    simp only [addDays, minutesPerDay]; ring
  have e2 : addDays x (-2) + 1440 = addDays x (-1) := by
    simp only [addDays, minutesPerDay]; ring
  have e3 : addDays x (-1) + 1440 = x := by
    simp only [addDays, minutesPerDay]; ring
  by_cases h1 : isWeekend (addDays x (-1)) = true
  · by_cases h2 : isWeekend (addDays x (-2)) = true
    · have hb : backOne x = addDays x (-3) := by
        unfold backOne; rw [if_pos h1, if_pos h2]
      have hg : gapOf x = 3 := by
        unfold gapOf; rw [if_pos h1, if_pos h2]
      have h3 : isWeekend (addDays x (-3)) = false := notWeekend_back3 x h1 h2
      rw [hb, hg]
      simp only [stepTimes, e1, e2, e3]
      rw [List.filter_cons_of_pos (by simp [h3]),
        List.filter_cons_of_neg (by simp [h2]),
        List.filter_cons_of_neg (by simp [h1])]
    · have hb : backOne x = addDays x (-2) := by
        unfold backOne; rw [if_pos h1, if_neg h2]
      have hg : gapOf x = 2 := by
        unfold gapOf; rw [if_pos h1, if_neg h2]
      rw [hb, hg]
      simp only [stepTimes, e2, e3]
      rw [List.filter_cons_of_pos
          (by simp only [Bool.not_eq_true] at h2; simp [h2]),
        List.filter_cons_of_neg (by simp [h1])]
  · have hb : backOne x = addDays x (-1) := by
      unfold backOne; rw [if_neg h1]
    have hg : gapOf x = 1 := by
      unfold gapOf; rw [if_neg h1]
    rw [hb, hg]
    simp only [stepTimes, e3]
    rw [List.filter_cons_of_pos
        (by simp only [Bool.not_eq_true] at h1; simp [h1])]

/-- The anchor chain: after `k` backwards weekday steps from a weekday `S`,
the weekday-filtered daily progression covering the walked distance has
exactly `k + 1` entries, its entry at index `k` is `S` itself, and the walk
spans `backDistM k S` calendar days. -/
theorem anchor_chain (S : Int) (hS : isWeekend S = false) :
    ∀ k : Nat,
      ((stepTimes 1440 (backIterM k S) (backDistM k S + 1)).filter
        (fun t => !(isWeekend t))).length = k + 1 ∧
      ((stepTimes 1440 (backIterM k S) (backDistM k S + 1)).filter
        (fun t => !(isWeekend t)))[k]? = some S ∧
      S - backIterM k S = 1440 * (backDistM k S : Int) := by
  intro k
  induction k with
  | zero =>
    refine ⟨?_, ?_, by simp [backIterM, backDistM]⟩
    · show ((stepTimes 1440 S 1).filter (fun t => !(isWeekend t))).length = 1
      simp [stepTimes, hS]
    · show ((stepTimes 1440 S 1).filter (fun t => !(isWeekend t)))[0]? = some S
      simp [stepTimes, hS]
  | succ n ih =>
    have hlen : backDistM (n + 1) S + 1 =
        (backDistM n S + 1) + gapOf (backIterM n S) := by
      show backDistM n S + gapOf (backIterM n S) + 1 = _
      omega
    have hiter : backIterM (n + 1) S = backOne (backIterM n S) := rfl
    rw [hiter, hlen,
      filter_stepTimes_backOne (backIterM n S) (backDistM n S + 1)]
    refine ⟨?_, ?_, ?_⟩
    · simp [ih.1]
    · rw [List.getElem?_cons_succ, ih.2.1]
    · have hgap := backOne_eq_sub (backIterM n S)
      have hdist := ih.2.2
      show S - backOne (backIterM n S) =
        1440 * ((backDistM n S + gapOf (backIterM n S) : Nat) : Int)
      push_cast
      omega

/-- The source's backtracking `while` loop computes exactly `r` backwards
weekday steps when `r` steps remain, given fuel for the at-most-3 calendar
days each step can consume — so the fuel bound in
`computeSeriesAnchorWeekday` is not a truncation. -/
theorem backtrackAux_eq (index : Nat) :
    ∀ (r fuel count : Nat) (s e : Int), count + r = index → 3 * r ≤ fuel →
      backtrackAux index fuel count s e =
        (backIterM r s, e + (backIterM r s - s)) := by
  intro r
  induction r with
  | zero =>
    intro fuel count s e hc hf
    have hnc : ¬ count < index := by omega
    cases fuel with
    | zero => simp [backtrackAux, backIterM]
    | succ f =>
      simp only [backtrackAux]
      rw [if_neg hnc]
      simp [backIterM]
  | succ n ih =>
    intro fuel count s e hc hf
    have hcl : count < index := by omega
    cases fuel with
    | zero => omega
    | succ f =>
      simp only [backtrackAux]
      rw [if_pos hcl]
      by_cases w1 : isWeekend (addDays s (-1)) = true
      · rw [if_pos w1]
        cases f with
        | zero => omega
        | succ f2 =>
          simp only [backtrackAux]
          rw [if_pos hcl]
          have hs2 : addDays (addDays s (-1)) (-1) = addDays s (-2) := by
            simp only [addDays, minutesPerDay]; ring
          have he2 : addDays (addDays e (-1)) (-1) = addDays e (-2) := by
            simp only [addDays, minutesPerDay]; ring
          rw [hs2, he2]
          by_cases w2 : isWeekend (addDays s (-2)) = true
          · rw [if_pos w2]
            cases f2 with
            | zero => omega
            | succ f3 =>
              simp only [backtrackAux]
              rw [if_pos hcl]
              have hs3 : addDays (addDays s (-2)) (-1) = addDays s (-3) := by
                simp only [addDays, minutesPerDay]; ring
              have he3 : addDays (addDays e (-2)) (-1) = addDays e (-3) := by
                simp only [addDays, minutesPerDay]; ring
              rw [hs3, he3]
              rw [if_neg (by rw [notWeekend_back3 s w1 w2]; simp)]
              rw [ih f3 (count + 1) (addDays s (-3)) (addDays e (-3))
                (by omega) (by omega)]
              have hbo : backOne s = addDays s (-3) := by
                unfold backOne; rw [if_pos w1, if_pos w2]
              have hX : backIterM n (addDays s (-3)) = backIterM (n + 1) s := by
                rw [← hbo, backIterM_backOne_comm]
                rfl
              rw [hX]
              have : addDays e (-3) + (backIterM (n + 1) s - addDays s (-3)) =
                  e + (backIterM (n + 1) s - s) := by
                simp only [addDays, minutesPerDay]; ring
              rw [this]
          · rw [if_neg w2]
            rw [ih f2 (count + 1) (addDays s (-2)) (addDays e (-2))
              (by omega) (by omega)]
            have hbo : backOne s = addDays s (-2) := by
              unfold backOne; rw [if_pos w1, if_neg w2]
            have hX : backIterM n (addDays s (-2)) = backIterM (n + 1) s := by
              rw [← hbo, backIterM_backOne_comm]
              rfl
            rw [hX]
            have : addDays e (-2) + (backIterM (n + 1) s - addDays s (-2)) =
                e + (backIterM (n + 1) s - s) := by
              simp only [addDays, minutesPerDay]; ring
            rw [this]
      · rw [if_neg w1]
        rw [ih f (count + 1) (addDays s (-1)) (addDays e (-1))
          (by omega) (by omega)]
        have hbo : backOne s = addDays s (-1) := by
          unfold backOne; rw [if_neg w1]
        have hX : backIterM n (addDays s (-1)) = backIterM (n + 1) s := by
          rw [← hbo, backIterM_backOne_comm]
          rfl
        rw [hX]
        have : addDays e (-1) + (backIterM (n + 1) s - addDays s (-1)) =
            e + (backIterM (n + 1) s - s) := by
          simp only [addDays, minutesPerDay]; ring
        rw [this]

/-- The weekday anchor computation equals `k` backwards weekday steps, with
the end time carried along at the same offset. -/
theorem computeSeriesAnchorWeekday_eq (k : Nat) (S E : Int) :
    computeSeriesAnchorWeekday k S E =
      (backIterM k S, E + (backIterM k S - S)) := by
  unfold computeSeriesAnchorWeekday
  exact backtrackAux_eq k k (3 * k + 3) 0 S E (by omega) (by omega)

/-- Series-id, type and duration facts for generator output, at the level of
`generateRecurringBookings`. -/
theorem generateRecurring_mem (σ : String) (ids : Nat → String)
    (base : BookingTemplate) (re : Int) (ty : BookingType) (b : Booking)
    (hb : b ∈ generateRecurringBookings σ ids base re ty) :
    b.seriesId = some σ ∧ b.type = ty ∧
      b.endTime = b.startTime + (base.endTime - base.startTime) := by
  unfold generateRecurringBookings at hb
  exact genLoop_mem_inv base σ ids (addDays re 1) ty 365
    base.startTime base.endTime 0 b hb

/-- Position-closed form of the weekly generator at the level of
`generateRecurringBookings`. -/
theorem generateRecurring_weekly_getElem? (σ : String) (ids : Nat → String)
    (base : BookingTemplate) (re : Int) (i : Nat) :
    (generateRecurringBookings σ ids base re .recurringWeekly)[i]? =
      if i < 365 ∧ base.startTime + 10080 * (i : Int) < re + 1440 then
        some (mkInstance base σ (ids i) (base.startTime + 10080 * (i : Int))
          (base.endTime + 10080 * (i : Int)) .recurringWeekly)
      else none := by
  unfold generateRecurringBookings
  rw [genLoop_weekly_getElem?]
  have : addDays re 1 = re + 1440 := by simp [addDays, minutesPerDay]
  rw [this]
  norm_num

theorem withTimes_startTime (base : BookingTemplate) (s e : Int) :
    (withTimes base s e).startTime = s := rfl

theorem withTimes_endTime (base : BookingTemplate) (s e : Int) :
    (withTimes base s e).endTime = e := rfl

/-- C3 counterexample: editing index 1 of a weekday series to a Saturday
start (minute 7740, day 5) back-computes the Friday anchor 6300, but
regenerating from that anchor skips the weekend, so the instance at index 1
lands on Monday 10620 — not on the edited time 7740. -/
theorem seriesShift_weekend_cex :
    isWeekend 7740 = true ∧
    computeSeriesAnchorWeekday 1 7740 7800 = (6300, 6360) ∧
    ((generateRecurringBookings "sid" (fun _ => "i")
        (withTimes ⟨"c1", "t", none, "o", 0, 0, .recurringWeekday, none,
          "blue", none, none⟩ 6300 6360) 11520 .recurringWeekday)[1]?).map
        (fun b => (b.startTime, b.endTime)) = some (10620, 10680) ∧
    (10620 : Int) ≠ 7740 := by
  refine ⟨rfl, rfl, rfl, by decide⟩

/-- C3 (amended): the recomputed series anchor is the exact inverse of the
generator's forward stepping.  For `RecurringWeekly`, regenerating from the
anchor reproduces the edited times `(S, E)` at index `k` and puts every
produced index `i` at the `7·(i-k)`-day offset from `S` with the edited
duration.  For `RecurringWeekday`, the same round trip holds provided the
edited start `S` falls on a weekday (a weekend `S` regenerates elsewhere —
see the counterexample), the walked-back span stays within the 365-step
cap, and the recurrence end date does not cut the series before `S`. -/
theorem seriesShift_roundTrip (σ : String) (ids : Nat → String)
    (base : BookingTemplate) (k : Nat) (S E re : Int) :
    (k < 365 → S < re + 1440 →
      (((generateRecurringBookings σ ids
          (withTimes base (computeSeriesAnchorWeekly k S E).1
            (computeSeriesAnchorWeekly k S E).2)
          re .recurringWeekly)[k]?).map (fun b => (b.startTime, b.endTime)) =
        some (S, E) ∧
       ∀ (i : Nat) (b : Booking),
         (generateRecurringBookings σ ids
           (withTimes base (computeSeriesAnchorWeekly k S E).1
             (computeSeriesAnchorWeekly k S E).2)
           re .recurringWeekly)[i]? = some b →
         b.startTime = S + 10080 * ((i : Int) - (k : Int)) ∧
         b.endTime = b.startTime + (E - S))) ∧
    (isWeekend S = false → backDistM k S + 1 ≤ 365 → S < re + 1440 →
      ((generateRecurringBookings σ ids
          (withTimes base (computeSeriesAnchorWeekday k S E).1
            (computeSeriesAnchorWeekday k S E).2)
          re .recurringWeekday)[k]?).map (fun b => (b.startTime, b.endTime)) =
        some (S, E)) := by
  have hanchor1 : (computeSeriesAnchorWeekly k S E).1 =
      S + 10080 * (-(k : Int)) := rfl
  have hanchor2 : (computeSeriesAnchorWeekly k S E).2 =
      E + 10080 * (-(k : Int)) := rfl
  constructor
  · intro hk hS
    constructor
    · rw [generateRecurring_weekly_getElem?]
      simp only [withTimes_startTime, withTimes_endTime, hanchor1, hanchor2]
      rw [if_pos (by exact ⟨hk, by omega⟩)]
      simp only [Option.map_some', mkInstance]
      rw [show S + 10080 * (-(k : Int)) + 10080 * (k : Int) = S from by ring,
        show E + 10080 * (-(k : Int)) + 10080 * (k : Int) = E from by ring]
    · intro i b hb
      rw [generateRecurring_weekly_getElem?] at hb
      simp only [withTimes_startTime, withTimes_endTime, hanchor1,
        hanchor2] at hb
      by_cases hcond : i < 365 ∧
          S + 10080 * (-(k : Int)) + 10080 * (i : Int) < re + 1440
      · rw [if_pos hcond, Option.some_inj] at hb
        subst hb
        simp only [mkInstance]
        constructor
        · ring
        · ring
      · rw [if_neg hcond] at hb
        simp at hb
  · intro hS hD hL
    have hanchor := computeSeriesAnchorWeekday_eq k S E
    have ha1 : (computeSeriesAnchorWeekday k S E).1 = backIterM k S := by
      rw [hanchor]
    have ha2 : (computeSeriesAnchorWeekday k S E).2 =
        E + (backIterM k S - S) := by
      rw [hanchor]
    rw [ha1, ha2]
    have hchain := anchor_chain S hS k
    have hdist := hchain.2.2
    have hmap := generateRecurring_weekday_times σ ids
      (withTimes base (backIterM k S) (E + (backIterM k S - S))) re
    rw [withTimes_startTime] at hmap
    have hsplit : stepTimes 1440 (backIterM k S) 365 =
        stepTimes 1440 (backIterM k S) (backDistM k S + 1) ++
          stepTimes 1440
            (backIterM k S + 1440 * ((backDistM k S + 1 : Nat) : Int))
            (365 - (backDistM k S + 1)) := by
      rw [← stepTimes_append]
      congr 1
      omega
    have hall : ∀ x ∈ stepTimes 1440 (backIterM k S) (backDistM k S + 1),
        (fun t => decide (t < re + 1440)) x = true := by
      intro x hx
      rcases stepTimes_mem 1440 (backIterM k S) x (backDistM k S + 1) hx with
        ⟨j, hj, rfl⟩
      simp only [decide_eq_true_eq]
      have : (j : Int) ≤ (backDistM k S : Int) := by
        exact_mod_cast Nat.le_of_lt_succ hj
      omega
    rw [hsplit, takeWhile_append_all _ _ _ hall, List.filter_append] at hmap
    have hk_lt : k < ((stepTimes 1440 (backIterM k S)
        (backDistM k S + 1)).filter (fun t => !(isWeekend t))).length := by
      rw [hchain.1]
      omega
    have hget : ((generateRecurringBookings σ ids
        (withTimes base (backIterM k S) (E + (backIterM k S - S)))
        re .recurringWeekday).map (fun b => b.startTime))[k]? = some S := by
      rw [hmap, List.getElem?_append_left hk_lt, hchain.2.1]
    rw [List.getElem?_map] at hget
    rcases Option.map_eq_some'.1 hget with ⟨b, hb, hbS⟩
    have hbmem : b ∈ generateRecurringBookings σ ids
        (withTimes base (backIterM k S) (E + (backIterM k S - S)))
        re .recurringWeekday := by
      rcases List.getElem?_eq_some_iff.1 hb with ⟨hlt, hEq⟩
      rw [← hEq]
      exact List.getElem_mem hlt
    have hdur := (generateRecurring_mem _ _ _ _ _ _ hbmem).2.2
    rw [withTimes_startTime, withTimes_endTime] at hdur
    rw [hb]
    simp only [Option.map_some']
    rw [hbS]
    have hbE : b.endTime = E := by
      rw [hdur, hbS]
      ring
    rw [hbE]

/-- Witness for C3 (amended): weekly round trip at index 2 (Monday of week
2, 09:00), and weekday round trip at index 1 from a Wednesday 09:00. -/
theorem seriesShift_roundTrip_witness :
    (((generateRecurringBookings "sid" (fun _ => "i")
        (withTimes ⟨"c1", "t", none, "o", 0, 0, .recurringWeekly, none,
          "blue", none, none⟩ (computeSeriesAnchorWeekly 2 20700 20760).1
          (computeSeriesAnchorWeekly 2 20700 20760).2)
        50400 .recurringWeekly)[2]?).map (fun b => (b.startTime, b.endTime)) =
      some (20700, 20760)) ∧
    (((generateRecurringBookings "sid" (fun _ => "i")
        (withTimes ⟨"c1", "t", none, "o", 0, 0, .recurringWeekday, none,
          "blue", none, none⟩ (computeSeriesAnchorWeekday 1 3420 3480).1
          (computeSeriesAnchorWeekday 1 3420 3480).2)
        5760 .recurringWeekday)[1]?).map (fun b => (b.startTime, b.endTime)) =
      some (3420, 3480)) := by
  constructor
  · exact ((seriesShift_roundTrip "sid" (fun _ => "i")
      ⟨"c1", "t", none, "o", 0, 0, .recurringWeekly, none, "blue", none,
        none⟩ 2 20700 20760 50400).1 (by decide) (by decide)).1
  · exact (seriesShift_roundTrip "sid" (fun _ => "i")
      ⟨"c1", "t", none, "o", 0, 0, .recurringWeekday, none, "blue", none,
        none⟩ 1 3420 3480 5760).2 (by decide) (by decide) (by decide)

/-- If some new instance inside the active period conflicts, the batch scan
returns the first such instance together with its colliding booking. -/
theorem firstPeriodConflict_some (ps pe : Int) (cid : String)
    (bookings : List Booking) (exId exSid : Option String) :
    ∀ l : List Booking,
      (∃ nb ∈ l, ps ≤ nb.startTime ∧ nb.startTime ≤ pe ∧
        (findOverlappingBooking nb.startTime nb.endTime cid bookings exId
          exSid).isSome) →
      ∃ nb c,
        firstPeriodConflict ps pe cid bookings exId exSid l = some (nb, c) ∧
        nb ∈ l ∧ ps ≤ nb.startTime ∧ nb.startTime ≤ pe ∧
        findOverlappingBooking nb.startTime nb.endTime cid bookings exId
          exSid = some c := by
  intro l
  induction l with
  | nil =>
    rintro ⟨nb, h, -⟩
    simp at h
  | cons x rest ih =>
    rintro ⟨nb, hmem, hp1, hp2, hov⟩
    by_cases hx : ps ≤ x.startTime ∧ x.startTime ≤ pe
    · rcases hfx : findOverlappingBooking x.startTime x.endTime cid bookings
          exId exSid with - | c
      · rcases List.mem_cons.1 hmem with h | h
        · subst h
          rw [hfx] at hov
          simp at hov
        · rcases ih ⟨nb, h, hp1, hp2, hov⟩ with
            ⟨nb', c', heq, hmem', h1', h2', h3'⟩
          refine ⟨nb', c', ?_, List.mem_cons_of_mem _ hmem', h1', h2', h3'⟩
          simp only [firstPeriodConflict]
          rw [if_pos hx]
          simp only [hfx]
          exact heq
      · refine ⟨x, c, ?_, List.mem_cons_self x rest, hx.1, hx.2, hfx⟩
        simp only [firstPeriodConflict]
        rw [if_pos hx]
        simp only [hfx]
    · rcases List.mem_cons.1 hmem with h | h
      · subst h
        exact absurd ⟨hp1, hp2⟩ hx
      · rcases ih ⟨nb, h, hp1, hp2, hov⟩ with
          ⟨nb', c', heq, hmem', h1', h2', h3'⟩
        refine ⟨nb', c', ?_, List.mem_cons_of_mem _ hmem', h1', h2', h3'⟩
        simp only [firstPeriodConflict]
        rw [if_neg hx]
        exact heq

/-- C2 (amended): for a signed-in create or series-scope edit with a
recurrence kind other than one-time and a recurrence end date, if some
generated instance whose start lies within the active period overlaps a
non-excluded existing booking, `handleSaveBooking` rejects the whole
operation: the corpus is returned unchanged (no create, update or delete)
and the signal surfaces a conflicting instance's times together with the
colliding booking.  (Instances outside the active period are not checked —
see the counterexample.) -/
theorem handleSave_batch_reject (a : SaveArgs) (re : Int)
    (h0 : a.signedIn = true)
    (h1 : (a.periodStart ≤ a.startTime ∧ a.startTime ≤ a.periodEnd) ∨
      a.confirmOutside = true)
    (hty : a.btype ≠ BookingType.oneTime)
    (hre : a.recurrenceEnd = some re)
    (hscope : a.editingBooking = none ∨ a.updateScope = Scope.series)
    (h2 : ∃ nb ∈ newBookingsFor a,
      a.periodStart ≤ nb.startTime ∧ nb.startTime ≤ a.periodEnd ∧
      (findOverlappingBooking nb.startTime nb.endTime a.classroomId
        a.bookings (exIdOf a) (exSidOf a)).isSome) :
    (handleSaveBooking a).corpus = a.bookings ∧
    ∃ nb c, (handleSaveBooking a).signal = SaveSignal.conflict nb c ∧
      nb ∈ newBookingsFor a ∧
      a.periodStart ≤ nb.startTime ∧ nb.startTime ≤ a.periodEnd ∧
      findOverlappingBooking nb.startTime nb.endTime a.classroomId a.bookings
        (exIdOf a) (exSidOf a) = some c := by
  rcases firstPeriodConflict_some a.periodStart a.periodEnd a.classroomId
      a.bookings (exIdOf a) (exSidOf a) (newBookingsFor a) h2 with
    ⟨nb, c, heq, hmem, hp1, hp2, hov⟩
  have hout : handleSaveBooking a = ⟨a.bookings, SaveSignal.conflict nb c⟩ := by
    unfold handleSaveBooking
    rw [if_neg (by simp [h0])]
    rw [if_neg (by
      rintro ⟨hor, hnc⟩
      rcases h1 with ⟨hl, hr⟩ | hc
      · rcases hor with h | h <;> omega
      · exact hnc (by simp [hc]))]
    simp only [heq]
  rw [hout]
  exact ⟨rfl, nb, c, rfl, hmem, hp1, hp2, hov⟩

/-- Witness for C2 (amended): the batch check rejects the whole weekly
creation because of its third instance, leaving the corpus unchanged. -/
theorem handleSave_batch_reject_witness :
    (handleSaveBooking saveRejectArgs).corpus = saveRejectArgs.bookings ∧
    ∃ nb c,
      (handleSaveBooking saveRejectArgs).signal = SaveSignal.conflict nb c ∧
      nb ∈ newBookingsFor saveRejectArgs ∧
      saveRejectArgs.periodStart ≤ nb.startTime ∧
      nb.startTime ≤ saveRejectArgs.periodEnd ∧
      findOverlappingBooking nb.startTime nb.endTime
        saveRejectArgs.classroomId saveRejectArgs.bookings
        (exIdOf saveRejectArgs) (exSidOf saveRejectArgs) = some c := by
  exact handleSave_batch_reject saveRejectArgs 23040 rfl
    (Or.inl (by constructor <;> decide)) (by decide) rfl (Or.inl rfl)
    (by decide)

/-- C2 counterexample: a generated instance that overlaps an existing
booking of the same classroom is not checked when its start lies outside
the active period — the operation completes and writes the whole series
instead of being rejected. -/
theorem handleSave_period_skip_cex :
    (handleSaveBooking saveSkipArgs).signal = SaveSignal.created ∧
    (handleSaveBooking saveSkipArgs).corpus ≠ saveSkipArgs.bookings ∧
    ∃ nb ∈ newBookingsFor saveSkipArgs,
      (findOverlappingBooking nb.startTime nb.endTime
        saveSkipArgs.classroomId saveSkipArgs.bookings
        (exIdOf saveSkipArgs) (exSidOf saveSkipArgs)).isSome := by
  refine ⟨rfl, by decide, by decide⟩
